import Mathlib

/-!
Verification of the pose-telemetry core of the space-mouse-webrtc repository.

Shallow embedding conventions:
* A JS ArrayBuffer / Uint8Array is a list of bytes: a value of List Nat whose
  entries are meant to be < 256 (reads mask with % 256, as a typed array does).
* A JS number (IEEE-754 binary64 value) that crosses the wire codec is
  represented by its 64-bit pattern, a Nat < 2^64; a DataView setFloat32 write
  is the explicit round-to-nearest-even narrowing on bit patterns below.
* JS numbers used in pure arithmetic (deadzone filter, change detector,
  latency bookkeeping) are represented by rationals.
* A fallible decode returns an Except carrying the thrown Error message.
-/

/-! ### Little-endian byte packing -/

/-- The k low-order bytes of n, little-endian, as a DataView write stores them. -/
def natToBytesLE : Nat → Nat → List Nat
  | 0, _ => []
  | k + 1, n => n % 256 :: natToBytesLE k (n / 256)

/-- Read a little-endian byte list back into a Nat; entries are masked to a
byte as a typed array stores them. -/
def bytesToNatLE : List Nat → Nat
  | [] => 0
  | b :: bs => b % 256 + 256 * bytesToNatLE bs

theorem natToBytesLE_length (k n : Nat) : (natToBytesLE k n).length = k := by
  induction k generalizing n with
  | zero => rfl
  | succ k ih => simp [natToBytesLE, ih]

theorem bytesToNatLE_natToBytesLE (k n : Nat) :
    bytesToNatLE (natToBytesLE k n) = n % 256 ^ k := by
  induction k generalizing n with
  | zero => simp [natToBytesLE, bytesToNatLE, Nat.mod_one]
  | succ k ih =>
      rw [natToBytesLE, bytesToNatLE, ih, Nat.mod_mod_of_dvd n dvd_rfl, pow_succ,
        mul_comm (256 ^ k) 256, Nat.mod_mul]

/-- DataView write of the byte list src into dst at byte offset off.  Faithful
to the JS semantics whenever the write fits inside the buffer, which is the
only situation the source exercises. -/
def writeBytes (dst : List Nat) (off : Nat) (src : List Nat) : List Nat :=
  dst.take off ++ src ++ dst.drop (off + src.length)

theorem writeBytes_append (xs ys src : List Nat) :
    writeBytes (xs ++ ys) xs.length src = xs ++ src ++ ys.drop src.length := by
  unfold writeBytes
  rw [List.take_left, ← List.drop_drop, List.drop_left]

/-! ### IEEE-754 narrowing and widening on bit patterns -/

/-- Sign bit of a binary64 pattern. -/
def f64Sign (b : Nat) : Nat := b / 2 ^ 63 % 2

/-- Biased exponent field of a binary64 pattern. -/
def f64Exp (b : Nat) : Nat := b / 2 ^ 52 % 2 ^ 11

/-- Mantissa field of a binary64 pattern. -/
def f64Man (b : Nat) : Nat := b % 2 ^ 52

/-- Round n / 2^k to the nearest integer, ties to even — the IEEE-754 default
rounding used by a DataView setFloat32 narrowing. -/
def rne (n k : Nat) : Nat :=
  let q := n / 2 ^ k
  let r := n % 2 ^ k
  if 2 ^ k < 2 * r then q + 1
  else if 2 * r < 2 ^ k then q
  else q + q % 2

/-- The binary32 pattern a DataView setFloat32 stores for the binary64 value
with pattern b: round-to-nearest-even narrowing.  NaN is mapped to the
canonical quiet NaN pattern engines store. -/
def float64BitsToFloat32Bits (b : Nat) : Nat :=
  let s := f64Sign b
  let e := f64Exp b
  let m := f64Man b
  if e = 2047 then
    if m = 0 then s * 2 ^ 31 + 255 * 2 ^ 23 else 0x7FC00000
  else if e = 0 then
    s * 2 ^ 31
  else
    let B : Int := (e : Int) - 1023
    if 127 < B then s * 2 ^ 31 + 255 * 2 ^ 23
    else if -126 ≤ B then
      let q := rne (2 ^ 52 + m) 29
      if q = 2 ^ 24 then
        if 127 < B + 1 then s * 2 ^ 31 + 255 * 2 ^ 23
        else s * 2 ^ 31 + (B + 1 + 127).toNat * 2 ^ 23
      else s * 2 ^ 31 + (B + 127).toNat * 2 ^ 23 + (q - 2 ^ 23)
    else
      s * 2 ^ 31 + rne (2 ^ 52 + m) (29 + (-126 - B).toNat)

/-- Floor of log2 with explicit fuel, so that it reduces definitionally. -/
def log2Fuel : Nat → Nat → Nat
  | 0, _ => 0
  | fuel + 1, n => if n < 2 then 0 else log2Fuel fuel (n / 2) + 1

/-- The binary64 pattern of the binary64 value produced by reading a binary32
pattern back (a DataView getFloat32 followed by the implicit exact widening to
a JS number).  NaN widens to the canonical quiet NaN pattern. -/
def float32BitsToFloat64Bits (b : Nat) : Nat :=
  let s := b / 2 ^ 31 % 2
  let e := b / 2 ^ 23 % 2 ^ 8
  let m := b % 2 ^ 23
  if e = 255 then
    if m = 0 then s * 2 ^ 63 + 2047 * 2 ^ 52 else 0x7FF8000000000000
  else if e = 0 then
    if m = 0 then s * 2 ^ 63
    else
      let t := log2Fuel 32 m
      s * 2 ^ 63 + (t + 874) * 2 ^ 52 + (m - 2 ^ t) * 2 ^ (52 - t)
  else
    s * 2 ^ 63 + (e + 896) * 2 ^ 52 + m * 2 ^ 29

/-- Rounding a binary64 value to binary32 precision and back, on bit patterns:
what an axis value goes through on a pack/unpack round trip. -/
def roundToFloat32Precision (b : Nat) : Nat :=
  float32BitsToFloat64Bits (float64BitsToFloat32Bits b)

theorem rne_le (n k : Nat) : rne n k ≤ n / 2 ^ k + 1 := by
  simp only [rne]
  split
  · exact Nat.le_refl _
  · split
    · exact Nat.le_succ _
    · omega

/-- The narrowing always produces a 32-bit pattern, so storing it in four bytes
and reading it back is lossless. -/
theorem float64BitsToFloat32Bits_lt (b : Nat) :
    float64BitsToFloat32Bits b < 2 ^ 32 := by
  have hs : f64Sign b ≤ 1 := Nat.lt_succ_iff.mp (Nat.mod_lt _ (by norm_num))
  have hm : f64Man b < 2 ^ 52 := Nat.mod_lt _ (by norm_num)
  have hq29 := rne_le (2 ^ 52 + f64Man b) 29
  have hdiv29 : (2 ^ 52 + f64Man b) / 2 ^ 29 < 2 ^ 24 :=
    Nat.div_lt_of_lt_mul (by omega)
  simp only [float64BitsToFloat32Bits]
  split
  · split <;> omega
  · split
    · omega
    · split
      · omega
      · split
        · split
          · split <;> omega
          · omega
        · have hq := rne_le (2 ^ 52 + f64Man b) (29 + (-126 - ((f64Exp b : Int) - 1023)).toNat)
          have hk : 30 ≤ 29 + (-126 - ((f64Exp b : Int) - 1023)).toNat := by omega
          have hdiv : (2 ^ 52 + f64Man b) / 2 ^ (29 + (-126 - ((f64Exp b : Int) - 1023)).toNat)
              ≤ (2 ^ 52 + f64Man b) / 2 ^ 30 :=
            Nat.div_le_div_left (Nat.pow_le_pow_right (by norm_num) hk) (by positivity)
          have hdiv30 : (2 ^ 52 + f64Man b) / 2 ^ 30 < 2 ^ 23 :=
            Nat.div_lt_of_lt_mul (by omega)
          omega

/-! ### Pose data model and codec (src/app/utils/pose-serializer.ts, both variants) -/

/-- Six JS-number axes of a 6-DoF pose; each field is a binary64 bit pattern. -/
structure SpaceMouseAxes where
  tx : Nat
  ty : Nat
  tz : Nat
  rx : Nat
  ry : Nat
  rz : Nat
  deriving DecidableEq, Repr

/-- The message of the Error thrown on a size mismatch, as the source
interpolates it. -/
def invalidSizeMsg (expected actual : Nat) : String :=
  "Invalid buffer size: expected " ++ toString expected ++ " bytes, got " ++
    toString actual

/-- Little-endian DataView getFloat32 on the raw bit pattern. -/
def getFloat32LE (buffer : List Nat) (off : Nat) : Nat :=
  bytesToNatLE ((buffer.drop off).take 4)

/-- Little-endian DataView getFloat64 on the raw bit pattern. -/
def getFloat64LE (buffer : List Nat) (off : Nat) : Nat :=
  bytesToNatLE ((buffer.drop off).take 8)

namespace LayoutA

/-- Packet size of the timestamp-free serializer variant. -/
def POSE_PACKET_SIZE : Nat := 24

/-- unpackPose of the 24-byte variant: throws on any size other than 24,
otherwise reads six float32 fields at offsets 0,4,8,12,16,20 (each widened to
a JS number, hence the float32-to-float64 conversion on the pattern). -/
def unpackPose (buffer : List Nat) : Except String SpaceMouseAxes :=
  if buffer.length ≠ POSE_PACKET_SIZE then
    Except.error (invalidSizeMsg POSE_PACKET_SIZE buffer.length)
  else
    Except.ok
      { tx := float32BitsToFloat64Bits (getFloat32LE buffer 0)
        ty := float32BitsToFloat64Bits (getFloat32LE buffer 4)
        tz := float32BitsToFloat64Bits (getFloat32LE buffer 8)
        rx := float32BitsToFloat64Bits (getFloat32LE buffer 12)
        ry := float32BitsToFloat64Bits (getFloat32LE buffer 16)
        rz := float32BitsToFloat64Bits (getFloat32LE buffer 20) }

/-- unpackPoseFromUint8Array: slices POSE_PACKET_SIZE bytes starting at off
(clamped at the end of the array, as Uint8Array.slice is) and decodes the
slice. -/
def unpackPoseFromUint8Array (data : List Nat) (off : Nat) :
    Except String SpaceMouseAxes :=
  unpackPose ((data.drop off).take POSE_PACKET_SIZE)

end LayoutA

namespace LayoutB

/-- Packet size of the timestamped serializer variant. -/
def POSE_PACKET_SIZE : Nat := 32

/-- Result of unpacking a pose with timestamp; the timestamp is a JS number,
kept as its binary64 bit pattern. -/
structure TimestampedPose where
  timestamp : Nat
  axes : SpaceMouseAxes
  deriving DecidableEq, Repr

/-- packPose of the 32-byte variant: a DataView setFloat64 of the timestamp at
offset 0 followed by setFloat32 of the six axes at offsets 8..28, on a fresh
32-byte buffer or on the caller-supplied reuseBuffer.  The source defaults the
timestamp to the current clock; the model takes it explicitly. -/
def packPose (axes : SpaceMouseAxes) (timestamp : Nat)
    (reuseBuffer : Option (List Nat)) : List Nat :=
  let buffer := reuseBuffer.getD (List.replicate POSE_PACKET_SIZE 0)
  let b0 := writeBytes buffer 0 (natToBytesLE 8 timestamp)
  let b1 := writeBytes b0 8 (natToBytesLE 4 (float64BitsToFloat32Bits axes.tx))
  let b2 := writeBytes b1 12 (natToBytesLE 4 (float64BitsToFloat32Bits axes.ty))
  let b3 := writeBytes b2 16 (natToBytesLE 4 (float64BitsToFloat32Bits axes.tz))
  let b4 := writeBytes b3 20 (natToBytesLE 4 (float64BitsToFloat32Bits axes.rx))
  let b5 := writeBytes b4 24 (natToBytesLE 4 (float64BitsToFloat32Bits axes.ry))
  writeBytes b5 28 (natToBytesLE 4 (float64BitsToFloat32Bits axes.rz))

/-- unpackPose of the 32-byte variant: same size check, reads only the six
float32 axis fields at offsets 8..28 and ignores the timestamp bytes. -/
def unpackPose (buffer : List Nat) : Except String SpaceMouseAxes :=
  if buffer.length ≠ POSE_PACKET_SIZE then
    Except.error (invalidSizeMsg POSE_PACKET_SIZE buffer.length)
  else
    Except.ok
      { tx := float32BitsToFloat64Bits (getFloat32LE buffer 8)
        ty := float32BitsToFloat64Bits (getFloat32LE buffer 12)
        tz := float32BitsToFloat64Bits (getFloat32LE buffer 16)
        rx := float32BitsToFloat64Bits (getFloat32LE buffer 20)
        ry := float32BitsToFloat64Bits (getFloat32LE buffer 24)
        rz := float32BitsToFloat64Bits (getFloat32LE buffer 28) }

/-- unpackPoseWithTimestamp: same size check, reads the float64 timestamp at
offset 0 and the six float32 axis fields at offsets 8..28. -/
def unpackPoseWithTimestamp (buffer : List Nat) :
    Except String TimestampedPose :=
  if buffer.length ≠ POSE_PACKET_SIZE then
    Except.error (invalidSizeMsg POSE_PACKET_SIZE buffer.length)
  else
    Except.ok
      { timestamp := getFloat64LE buffer 0
        axes :=
          { tx := float32BitsToFloat64Bits (getFloat32LE buffer 8)
            ty := float32BitsToFloat64Bits (getFloat32LE buffer 12)
            tz := float32BitsToFloat64Bits (getFloat32LE buffer 16)
            rx := float32BitsToFloat64Bits (getFloat32LE buffer 20)
            ry := float32BitsToFloat64Bits (getFloat32LE buffer 24)
            rz := float32BitsToFloat64Bits (getFloat32LE buffer 28) } }

/-- unpackPoseFromUint8Array of the 32-byte variant. -/
def unpackPoseFromUint8Array (data : List Nat) (off : Nat) :
    Except String SpaceMouseAxes :=
  unpackPose ((data.drop off).take POSE_PACKET_SIZE)

end LayoutB

/-! ### Deadzone filter and change detector (deadzone utility module) -/

/-- Math.sign on rationals (the JS negative-zero case has no rational
counterpart). -/
def jsSign (v : ℚ) : ℚ :=
  if 0 < v then 1 else if v < 0 then -1 else 0

/-- applyDeadzone: zero inside the threshold, otherwise the sign-preserving
rescale capped at 1.  The source defaults threshold to 0.1; the model takes it
explicitly. -/
def applyDeadzone (value threshold : ℚ) : ℚ :=
  let absValue := |value|
  if absValue < threshold then 0
  else
    let sign := jsSign value
    let scaledValue := (absValue - threshold) / (1 - threshold)
    sign * min scaledValue 1

/-- hasSignificantChange: strict comparison of the absolute difference against
epsilon.  The source defaults epsilon to 0.001; the model takes it
explicitly. -/
def hasSignificantChange (a b epsilon : ℚ) : Bool :=
  decide (epsilon < |a - b|)

/-! ### Claims about the deadzone filter and change detector -/

/-- C3 counterexample: the claim asserts the output is clamped to [-1, 1] for
every threshold other than 1, but at value 10 and threshold 2 the code
evaluates sign(10) * min((10 - 2) / (1 - 2), 1) = -8, far outside [-1, 1]. -/
theorem applyDeadzone_clamp_cex :
    applyDeadzone 10 2 = -8 ∧ applyDeadzone 10 2 < -1 := by
  have h : applyDeadzone 10 2 = -8 := by
    simp only [applyDeadzone, jsSign]
    norm_num [min_def]
  exact ⟨h, by rw [h]; norm_num⟩

/-- C3 (amended): for every threshold other than 1, applyDeadzone returns
exactly 0 when the absolute value is below the threshold, and otherwise
sign(value) * min((abs value - threshold) / (1 - threshold), 1); the output is
clamped to [-1, 1] whenever the threshold is below 1 (so in particular for the
default 0.1, where 1.5 maps to 1 and -1.5 to -1); the function is pure with no
error conditions. -/
theorem applyDeadzone_spec (value threshold : ℚ) (hthr : threshold ≠ 1) :
    (|value| < threshold → applyDeadzone value threshold = 0) ∧
    (threshold ≤ |value| →
      applyDeadzone value threshold =
        jsSign value * min ((|value| - threshold) / (1 - threshold)) 1) ∧
    (threshold < 1 →
      -1 ≤ applyDeadzone value threshold ∧ applyDeadzone value threshold ≤ 1) := by
  refine ⟨fun h => by simp only [applyDeadzone]; rw [if_pos h], fun h => by
    simp only [applyDeadzone]; rw [if_neg (not_lt.mpr h)], fun hlt => ?_⟩
  simp only [applyDeadzone]
  split
  · norm_num
  · rename_i h
    have habs : threshold ≤ |value| := not_lt.mp h
    have hden : (0 : ℚ) < 1 - threshold := by linarith
    have hsc : 0 ≤ (|value| - threshold) / (1 - threshold) :=
      div_nonneg (by linarith) (le_of_lt hden)
    have hmin0 : 0 ≤ min ((|value| - threshold) / (1 - threshold)) 1 :=
      le_min hsc (by norm_num)
    have hmin1 : min ((|value| - threshold) / (1 - threshold)) 1 ≤ 1 :=
      min_le_right _ _
    have hsign : jsSign value = 1 ∨ jsSign value = -1 ∨ jsSign value = 0 := by
      unfold jsSign; split
      · exact Or.inl rfl
      · split
        · exact Or.inr (Or.inl rfl)
        · exact Or.inr (Or.inr rfl)
    rcases hsign with hs | hs | hs <;> rw [hs] <;> constructor <;> nlinarith

/-- C3 witness: the amended statement evaluated at value 1.5 with the default
threshold 0.1, where the rescale caps at exactly 1. -/
theorem applyDeadzone_spec_witness :
    applyDeadzone (3 / 2) (1 / 10) =
      jsSign (3 / 2) * min ((|(3 / 2 : ℚ)| - 1 / 10) / (1 - 1 / 10)) 1 ∧
    -1 ≤ applyDeadzone (3 / 2) (1 / 10) ∧ applyDeadzone (3 / 2) (1 / 10) ≤ 1 := by
  have h := applyDeadzone_spec (3 / 2) (1 / 10) (by norm_num)
  have habs : |(3 / 2 : ℚ)| = 3 / 2 := abs_of_pos (by norm_num)
  exact ⟨h.2.1 (by rw [habs]; norm_num), h.2.2 (by norm_num)⟩

/-- C8 counterexample: the claim asserts hasSignificantChange returns false for
identical values under every epsilon, but with a negative epsilon the strict
comparison 0 > epsilon makes it return true even for identical values. -/
theorem hasSignificantChange_identical_cex :
    hasSignificantChange 0 0 (-1) = true := by
  simp only [hasSignificantChange]
  norm_num

/-- C8 (amended): hasSignificantChange a b epsilon is true exactly when
the absolute difference strictly exceeds epsilon, and false exactly when it is
at most epsilon — in particular false when the difference equals epsilon, and
false for identical values whenever epsilon is nonnegative (as with the
default 0.001). -/
theorem hasSignificantChange_spec (a b epsilon : ℚ) :
    (hasSignificantChange a b epsilon = true ↔ epsilon < |a - b|) ∧
    (hasSignificantChange a b epsilon = false ↔ |a - b| ≤ epsilon) ∧
    (|a - b| = epsilon → hasSignificantChange a b epsilon = false) ∧
    (a = b → 0 ≤ epsilon → hasSignificantChange a b epsilon = false) := by
  have ht : hasSignificantChange a b epsilon = true ↔ epsilon < |a - b| := by
    simp [hasSignificantChange]
  have hf : hasSignificantChange a b epsilon = false ↔ |a - b| ≤ epsilon := by
    simp [hasSignificantChange]
  refine ⟨ht, hf, fun h => hf.mpr (le_of_eq h), fun hab h0 => hf.mpr ?_⟩
  rw [hab]
  simpa using h0

/-- C8 witness: the amended statement at the spec's concrete examples — a
difference of 0.0005 is not significant at epsilon 0.001, a difference of
0.002 is, and identical values are never significant at the default
epsilon. -/
theorem hasSignificantChange_spec_witness :
    hasSignificantChange (1 / 2) (5005 / 10000) (1 / 1000) = false ∧
    hasSignificantChange (1 / 2) (502 / 1000) (1 / 1000) = true ∧
    hasSignificantChange (1 / 3) (1 / 3) (1 / 1000) = false := by
  refine ⟨(hasSignificantChange_spec (1 / 2) (5005 / 10000) (1 / 1000)).2.1.mpr
      (by rw [abs_le]; constructor <;> norm_num),
    (hasSignificantChange_spec (1 / 2) (502 / 1000) (1 / 1000)).1.mpr
      (lt_abs.mpr (Or.inr (by norm_num))),
    (hasSignificantChange_spec (1 / 3) (1 / 3) (1 / 1000)).2.2.2 rfl (by norm_num)⟩

/-! ### Claims about the codec validation and slicing -/

theorem layoutA_unpack_ok_iff (buffer : List Nat) :
    (∃ p, LayoutA.unpackPose buffer = Except.ok p) ↔ buffer.length = 24 := by
  unfold LayoutA.unpackPose LayoutA.POSE_PACKET_SIZE
  split <;> simp_all

theorem layoutB_unpack_ok_iff (buffer : List Nat) :
    (∃ p, LayoutB.unpackPose buffer = Except.ok p) ↔ buffer.length = 32 := by
  unfold LayoutB.unpackPose LayoutB.POSE_PACKET_SIZE
  split <;> simp_all

/-- C4: decoding a buffer whose byte length is not exactly the variant's fixed
size (24 for Layout A, 32 for Layout B) fails with the InvalidLength error
whose message states both the expected and the actual byte length; no partial
decoding is attempted. -/
theorem unpackPose_invalidLength (buffer : List Nat) :
    (buffer.length ≠ 24 →
      LayoutA.unpackPose buffer =
        Except.error (invalidSizeMsg 24 buffer.length)) ∧
    (buffer.length ≠ 32 →
      LayoutB.unpackPose buffer =
        Except.error (invalidSizeMsg 32 buffer.length) ∧
      LayoutB.unpackPoseWithTimestamp buffer =
        Except.error (invalidSizeMsg 32 buffer.length)) := by
  refine ⟨fun h => ?_, fun h => ⟨?_, ?_⟩⟩
  · simp [LayoutA.unpackPose, LayoutA.POSE_PACKET_SIZE, h]
  · simp [LayoutB.unpackPose, LayoutB.POSE_PACKET_SIZE, h]
  · simp [LayoutB.unpackPoseWithTimestamp, LayoutB.POSE_PACKET_SIZE, h]

/-- C4 witness: a 10-byte buffer is rejected by both variants with the exact
message reporting expected=24 (or 32) and actual=10. -/
theorem unpackPose_invalidLength_witness :
    LayoutA.unpackPose (List.replicate 10 0) =
      Except.error "Invalid buffer size: expected 24 bytes, got 10" ∧
    LayoutB.unpackPose (List.replicate 10 0) =
      Except.error "Invalid buffer size: expected 32 bytes, got 10" ∧
    LayoutB.unpackPoseWithTimestamp (List.replicate 10 0) =
      Except.error "Invalid buffer size: expected 32 bytes, got 10" := by
  have h := unpackPose_invalidLength (List.replicate 10 0)
  have h24 := h.1 (by decide)
  have h32 := h.2 (by decide)
  exact ⟨by rw [h24]; rfl, by rw [h32.1]; rfl, by rw [h32.2]; rfl⟩

/-- C9: on every 32-byte buffer the two Layout B decoders agree on the axes:
unpackPose succeeds exactly when unpackPoseWithTimestamp does and returns its
axes component; moreover unpackPose never reads the 8 timestamp bytes — its
result depends only on the buffer from byte 8 on. -/
theorem layoutB_decoders_agree (buffer : List Nat) (h : buffer.length = 32) :
    (∃ tp : LayoutB.TimestampedPose,
        LayoutB.unpackPoseWithTimestamp buffer = Except.ok tp ∧
        LayoutB.unpackPose buffer = Except.ok tp.axes) ∧
    (∀ buffer2 : List Nat, buffer2.length = 32 →
      buffer.drop 8 = buffer2.drop 8 →
      LayoutB.unpackPose buffer = LayoutB.unpackPose buffer2) := by
  constructor
  · refine ⟨{ timestamp := getFloat64LE buffer 0
              axes :=
                { tx := float32BitsToFloat64Bits (getFloat32LE buffer 8)
                  ty := float32BitsToFloat64Bits (getFloat32LE buffer 12)
                  tz := float32BitsToFloat64Bits (getFloat32LE buffer 16)
                  rx := float32BitsToFloat64Bits (getFloat32LE buffer 20)
                  ry := float32BitsToFloat64Bits (getFloat32LE buffer 24)
                  rz := float32BitsToFloat64Bits (getFloat32LE buffer 28) } }, ?_, ?_⟩ <;>
      simp [LayoutB.unpackPoseWithTimestamp, LayoutB.unpackPose, LayoutB.POSE_PACKET_SIZE, h]
  · intro buffer2 h2 hdrop
    have g : ∀ off, 8 ≤ off → getFloat32LE buffer off = getFloat32LE buffer2 off := by
      intro off hoff
      unfold getFloat32LE
      have hoff8 : 8 + (off - 8) = off := by omega
      have heq : buffer.drop off = buffer2.drop off := by
        calc buffer.drop off = (buffer.drop 8).drop (off - 8) := by
              rw [List.drop_drop, hoff8]
          _ = (buffer2.drop 8).drop (off - 8) := by rw [hdrop]
          _ = buffer2.drop off := by rw [List.drop_drop, hoff8]
      rw [heq]
    simp [LayoutB.unpackPose, LayoutB.POSE_PACKET_SIZE, h, h2,
      g 8 (by norm_num), g 12 (by norm_num), g 16 (by norm_num),
      g 20 (by norm_num), g 24 (by norm_num), g 28 (by norm_num)]

/-- C9 witness: the agreement at a concrete 32-byte buffer whose timestamp
bytes differ from those of a second buffer with the same tail. -/
theorem layoutB_decoders_agree_witness :
    (∃ tp : LayoutB.TimestampedPose,
        LayoutB.unpackPoseWithTimestamp (List.replicate 32 1) = Except.ok tp ∧
        LayoutB.unpackPose (List.replicate 32 1) = Except.ok tp.axes) ∧
    LayoutB.unpackPose (List.replicate 32 1) =
      LayoutB.unpackPose (List.replicate 8 2 ++ List.replicate 24 1) := by
  have h := layoutB_decoders_agree (List.replicate 32 1) (by decide)
  exact ⟨h.1, h.2 (List.replicate 8 2 ++ List.replicate 24 1) (by decide) (by decide)⟩

/-- C10: unpackPoseFromUint8Array succeeds exactly when at least
POSE_PACKET_SIZE bytes are available from the given offset, reads only those
bytes (its result depends only on the sliced region), and when fewer bytes
remain the shortened slice is rejected with the InvalidLength error instead
of being decoded; this holds for both variants. -/
theorem unpackPoseFromUint8Array_safe (data : List Nat) (off : Nat) :
    ((∃ p, LayoutA.unpackPoseFromUint8Array data off = Except.ok p) ↔
      off + 24 ≤ data.length) ∧
    ((∃ p, LayoutB.unpackPoseFromUint8Array data off = Except.ok p) ↔
      off + 32 ≤ data.length) ∧
    (data.length < off + 24 →
      LayoutA.unpackPoseFromUint8Array data off =
        Except.error (invalidSizeMsg 24 (min 24 (data.length - off)))) ∧
    (data.length < off + 32 →
      LayoutB.unpackPoseFromUint8Array data off =
        Except.error (invalidSizeMsg 32 (min 32 (data.length - off)))) ∧
    (∀ data2 : List Nat,
      (data2.drop off).take 24 = (data.drop off).take 24 →
      LayoutA.unpackPoseFromUint8Array data2 off =
        LayoutA.unpackPoseFromUint8Array data off) ∧
    (∀ data2 : List Nat,
      (data2.drop off).take 32 = (data.drop off).take 32 →
      LayoutB.unpackPoseFromUint8Array data2 off =
        LayoutB.unpackPoseFromUint8Array data off) := by
  have lenA : ((data.drop off).take 24).length = min 24 (data.length - off) := by simp
  have lenB : ((data.drop off).take 32).length = min 32 (data.length - off) := by simp
  refine ⟨?_, ?_, fun hshort => ?_, fun hshort => ?_, fun data2 hslice => ?_,
    fun data2 hslice => ?_⟩
  · rw [LayoutA.unpackPoseFromUint8Array, layoutA_unpack_ok_iff,
      show LayoutA.POSE_PACKET_SIZE = 24 from rfl, lenA]
    omega
  · rw [LayoutB.unpackPoseFromUint8Array, layoutB_unpack_ok_iff,
      show LayoutB.POSE_PACKET_SIZE = 32 from rfl, lenB]
    omega
  · rw [LayoutA.unpackPoseFromUint8Array,
      show LayoutA.POSE_PACKET_SIZE = 24 from rfl]
    have hne : ((data.drop off).take 24).length ≠ 24 := by omega
    rw [(unpackPose_invalidLength _).1 hne, lenA]
  · rw [LayoutB.unpackPoseFromUint8Array,
      show LayoutB.POSE_PACKET_SIZE = 32 from rfl]
    rw [((unpackPose_invalidLength _).2 (by omega)).1, lenB]
  · rw [LayoutA.unpackPoseFromUint8Array, LayoutA.unpackPoseFromUint8Array,
      show LayoutA.POSE_PACKET_SIZE = 24 from rfl, hslice]
  · rw [LayoutB.unpackPoseFromUint8Array, LayoutB.unpackPoseFromUint8Array,
      show LayoutB.POSE_PACKET_SIZE = 32 from rfl, hslice]

/-- C10 witness: a 40-byte array read at offset 20 leaves 20 bytes, so the
32-byte variant rejects the short slice while a region-equal second array
decodes identically under the 24-byte variant. -/
theorem unpackPoseFromUint8Array_safe_witness :
    LayoutB.unpackPoseFromUint8Array (List.replicate 40 0) 20 =
      Except.error (invalidSizeMsg 32 (min 32 (40 - 20))) ∧
    LayoutA.unpackPoseFromUint8Array (List.replicate 20 1 ++ List.replicate 24 7 ++ [9]) 20 =
      LayoutA.unpackPoseFromUint8Array (List.replicate 44 7) 20 := by
  constructor
  · have h := (unpackPoseFromUint8Array_safe (List.replicate 40 0) 20).2.2.2.1
      (by simp)
    simpa using h
  · exact (unpackPoseFromUint8Array_safe (List.replicate 44 7)
      20).2.2.2.2.1 (List.replicate 20 1 ++ List.replicate 24 7 ++ [9]) (by decide)

/-! ### Claim C2: Layout B pack/unpack round trip -/

/-- On a fresh buffer the seven adjacent DataView writes of packPose lay the
packet out as the plain concatenation of its fields. -/
theorem packPose_fresh (axes : SpaceMouseAxes) (ts : Nat) :
    LayoutB.packPose axes ts none =
      natToBytesLE 8 ts ++
      (natToBytesLE 4 (float64BitsToFloat32Bits axes.tx) ++
      (natToBytesLE 4 (float64BitsToFloat32Bits axes.ty) ++
      (natToBytesLE 4 (float64BitsToFloat32Bits axes.tz) ++
      (natToBytesLE 4 (float64BitsToFloat32Bits axes.rx) ++
      (natToBytesLE 4 (float64BitsToFloat32Bits axes.ry) ++
      natToBytesLE 4 (float64BitsToFloat32Bits axes.rz)))))) := by
  obtain ⟨x1, x2, x3, x4, x5, x6⟩ := axes
  simp only [LayoutB.packPose, LayoutB.POSE_PACKET_SIZE, Option.getD]
  have l8 : (natToBytesLE 8 ts).length = 8 := natToBytesLE_length _ _
  generalize h8 : natToBytesLE 8 ts = t8 at l8 ⊢
  have la1 : (natToBytesLE 4 (float64BitsToFloat32Bits x1)).length = 4 := natToBytesLE_length _ _
  generalize h1 : natToBytesLE 4 (float64BitsToFloat32Bits x1) = a1 at la1 ⊢
  have la2 : (natToBytesLE 4 (float64BitsToFloat32Bits x2)).length = 4 := natToBytesLE_length _ _
  generalize h2 : natToBytesLE 4 (float64BitsToFloat32Bits x2) = a2 at la2 ⊢
  have la3 : (natToBytesLE 4 (float64BitsToFloat32Bits x3)).length = 4 := natToBytesLE_length _ _
  generalize h3 : natToBytesLE 4 (float64BitsToFloat32Bits x3) = a3 at la3 ⊢
  have la4 : (natToBytesLE 4 (float64BitsToFloat32Bits x4)).length = 4 := natToBytesLE_length _ _
  generalize h4 : natToBytesLE 4 (float64BitsToFloat32Bits x4) = a4 at la4 ⊢
  have la5 : (natToBytesLE 4 (float64BitsToFloat32Bits x5)).length = 4 := natToBytesLE_length _ _
  generalize h5 : natToBytesLE 4 (float64BitsToFloat32Bits x5) = a5 at la5 ⊢
  have la6 : (natToBytesLE 4 (float64BitsToFloat32Bits x6)).length = 4 := natToBytesLE_length _ _
  generalize h6 : natToBytesLE 4 (float64BitsToFloat32Bits x6) = a6 at la6 ⊢
  rw [show writeBytes (List.replicate 32 0) 0 t8 = t8 ++ List.replicate 24 0 by
    simp [writeBytes, l8]]
  rw [show writeBytes (t8 ++ List.replicate 24 0) 8 a1 = t8 ++ (a1 ++ List.replicate 20 0) by
    rw [← l8, writeBytes_append]
    simp [la1]]
  rw [show writeBytes (t8 ++ (a1 ++ List.replicate 20 0)) 12 a2 =
      t8 ++ (a1 ++ (a2 ++ List.replicate 16 0)) by
    rw [← List.append_assoc,
      show (12 : Nat) = (t8 ++ a1).length by simp [l8, la1], writeBytes_append]
    simp [la2]]
  rw [show writeBytes (t8 ++ (a1 ++ (a2 ++ List.replicate 16 0))) 16 a3 =
      t8 ++ (a1 ++ (a2 ++ (a3 ++ List.replicate 12 0))) by
    rw [← List.append_assoc, ← List.append_assoc]
    nth_rewrite 2 [show (16 : Nat) = (t8 ++ a1 ++ a2).length by simp [l8, la1, la2]]
    rw [writeBytes_append]
    simp [la3]]
  rw [show writeBytes (t8 ++ (a1 ++ (a2 ++ (a3 ++ List.replicate 12 0)))) 20 a4 =
      t8 ++ (a1 ++ (a2 ++ (a3 ++ (a4 ++ List.replicate 8 0)))) by
    rw [← List.append_assoc, ← List.append_assoc, ← List.append_assoc,
      show (20 : Nat) = (t8 ++ a1 ++ a2 ++ a3).length by simp [l8, la1, la2, la3],
      writeBytes_append]
    simp [la4]]
  rw [show writeBytes (t8 ++ (a1 ++ (a2 ++ (a3 ++ (a4 ++ List.replicate 8 0))))) 24 a5 =
      t8 ++ (a1 ++ (a2 ++ (a3 ++ (a4 ++ (a5 ++ List.replicate 4 0))))) by
    rw [← List.append_assoc, ← List.append_assoc, ← List.append_assoc, ← List.append_assoc,
      show (24 : Nat) = (t8 ++ a1 ++ a2 ++ a3 ++ a4).length by simp [l8, la1, la2, la3, la4],
      writeBytes_append]
    simp [la5]]
  rw [show writeBytes (t8 ++ (a1 ++ (a2 ++ (a3 ++ (a4 ++ (a5 ++ List.replicate 4 0)))))) 28 a6 =
      t8 ++ (a1 ++ (a2 ++ (a3 ++ (a4 ++ (a5 ++ a6))))) by
    rw [← List.append_assoc, ← List.append_assoc, ← List.append_assoc, ← List.append_assoc,
      ← List.append_assoc,
      show (28 : Nat) = (t8 ++ a1 ++ a2 ++ a3 ++ a4 ++ a5).length by
        simp [l8, la1, la2, la3, la4, la5],
      writeBytes_append]
    simp [la6]]

/-- C2: for every pose p and every 64-bit timestamp pattern ts,
unpackPoseWithTimestamp of packPose p ts returns the timestamp exactly, and
each of the six axes equal to the corresponding axis of p rounded to 32-bit
float precision (hence exact for values exactly representable in binary32,
such as 0 and plus or minus 1). -/
theorem packPose_roundTrip (axes : SpaceMouseAxes) (ts : Nat) (hts : ts < 2 ^ 64) :
    LayoutB.unpackPoseWithTimestamp (LayoutB.packPose axes ts none) =
      Except.ok
        { timestamp := ts
          axes :=
            { tx := roundToFloat32Precision axes.tx
              ty := roundToFloat32Precision axes.ty
              tz := roundToFloat32Precision axes.tz
              rx := roundToFloat32Precision axes.rx
              ry := roundToFloat32Precision axes.ry
              rz := roundToFloat32Precision axes.rz } } := by
  have rA : ∀ x : Nat,
      bytesToNatLE (natToBytesLE 4 (float64BitsToFloat32Bits x)) =
        float64BitsToFloat32Bits x := by
    intro x
    rw [bytesToNatLE_natToBytesLE]
    exact Nat.mod_eq_of_lt (by have := float64BitsToFloat32Bits_lt x; omega)
  obtain ⟨x1, x2, x3, x4, x5, x6⟩ := axes
  rw [packPose_fresh]
  set t8 : List Nat := natToBytesLE 8 ts with ht8
  set c1 : List Nat := natToBytesLE 4 (float64BitsToFloat32Bits x1) with hc1
  set c2 : List Nat := natToBytesLE 4 (float64BitsToFloat32Bits x2) with hc2
  set c3 : List Nat := natToBytesLE 4 (float64BitsToFloat32Bits x3) with hc3
  set c4 : List Nat := natToBytesLE 4 (float64BitsToFloat32Bits x4) with hc4
  set c5 : List Nat := natToBytesLE 4 (float64BitsToFloat32Bits x5) with hc5
  set c6 : List Nat := natToBytesLE 4 (float64BitsToFloat32Bits x6) with hc6
  have l8 : t8.length = 8 := by rw [ht8]; exact natToBytesLE_length _ _
  have lc1 : c1.length = 4 := by rw [hc1]; exact natToBytesLE_length _ _
  have lc2 : c2.length = 4 := by rw [hc2]; exact natToBytesLE_length _ _
  have lc3 : c3.length = 4 := by rw [hc3]; exact natToBytesLE_length _ _
  have lc4 : c4.length = 4 := by rw [hc4]; exact natToBytesLE_length _ _
  have lc5 : c5.length = 4 := by rw [hc5]; exact natToBytesLE_length _ _
  have lc6 : c6.length = 4 := by rw [hc6]; exact natToBytesLE_length _ _
  have d8 : (t8 ++ (c1 ++ (c2 ++ (c3 ++ (c4 ++ (c5 ++ c6)))))).drop 8 =
      c1 ++ (c2 ++ (c3 ++ (c4 ++ (c5 ++ c6)))) := List.drop_left' l8
  have d12 : (t8 ++ (c1 ++ (c2 ++ (c3 ++ (c4 ++ (c5 ++ c6)))))).drop 12 =
      c2 ++ (c3 ++ (c4 ++ (c5 ++ c6))) := by
    rw [show (12 : Nat) = 8 + 4 from rfl, ← List.drop_drop, d8, List.drop_left' lc1]
  have d16 : (t8 ++ (c1 ++ (c2 ++ (c3 ++ (c4 ++ (c5 ++ c6)))))).drop 16 =
      c3 ++ (c4 ++ (c5 ++ c6)) := by
    rw [show (16 : Nat) = 12 + 4 from rfl, ← List.drop_drop, d12, List.drop_left' lc2]
  have d20 : (t8 ++ (c1 ++ (c2 ++ (c3 ++ (c4 ++ (c5 ++ c6)))))).drop 20 =
      c4 ++ (c5 ++ c6) := by
    rw [show (20 : Nat) = 16 + 4 from rfl, ← List.drop_drop, d16, List.drop_left' lc3]
  have d24 : (t8 ++ (c1 ++ (c2 ++ (c3 ++ (c4 ++ (c5 ++ c6)))))).drop 24 =
      c5 ++ c6 := by
    rw [show (24 : Nat) = 20 + 4 from rfl, ← List.drop_drop, d20, List.drop_left' lc4]
  have d28 : (t8 ++ (c1 ++ (c2 ++ (c3 ++ (c4 ++ (c5 ++ c6)))))).drop 28 = c6 := by
    rw [show (28 : Nat) = 24 + 4 from rfl, ← List.drop_drop, d24, List.drop_left' lc5]
  have hlen : (t8 ++ (c1 ++ (c2 ++ (c3 ++ (c4 ++ (c5 ++ c6)))))).length = 32 := by
    simp [l8, lc1, lc2, lc3, lc4, lc5, lc6]
  have g0 : getFloat64LE (t8 ++ (c1 ++ (c2 ++ (c3 ++ (c4 ++ (c5 ++ c6)))))) 0 = ts := by
    unfold getFloat64LE
    rw [List.drop_zero, List.take_left' l8, ht8, bytesToNatLE_natToBytesLE]
    exact Nat.mod_eq_of_lt (by omega)
  have g8 : getFloat32LE (t8 ++ (c1 ++ (c2 ++ (c3 ++ (c4 ++ (c5 ++ c6)))))) 8 =
      float64BitsToFloat32Bits x1 := by
    unfold getFloat32LE
    rw [d8, List.take_left' lc1, hc1, rA]
  have g12 : getFloat32LE (t8 ++ (c1 ++ (c2 ++ (c3 ++ (c4 ++ (c5 ++ c6)))))) 12 =
      float64BitsToFloat32Bits x2 := by
    unfold getFloat32LE
    rw [d12, List.take_left' lc2, hc2, rA]
  have g16 : getFloat32LE (t8 ++ (c1 ++ (c2 ++ (c3 ++ (c4 ++ (c5 ++ c6)))))) 16 =
      float64BitsToFloat32Bits x3 := by
    unfold getFloat32LE
    rw [d16, List.take_left' lc3, hc3, rA]
  have g20 : getFloat32LE (t8 ++ (c1 ++ (c2 ++ (c3 ++ (c4 ++ (c5 ++ c6)))))) 20 =
      float64BitsToFloat32Bits x4 := by
    unfold getFloat32LE
    rw [d20, List.take_left' lc4, hc4, rA]
  have g24 : getFloat32LE (t8 ++ (c1 ++ (c2 ++ (c3 ++ (c4 ++ (c5 ++ c6)))))) 24 =
      float64BitsToFloat32Bits x5 := by
    unfold getFloat32LE
    rw [d24, List.take_left' lc5, hc5, rA]
  have g28 : getFloat32LE (t8 ++ (c1 ++ (c2 ++ (c3 ++ (c4 ++ (c5 ++ c6)))))) 28 =
      float64BitsToFloat32Bits x6 := by
    unfold getFloat32LE
    rw [d28, ← lc6, List.take_length, hc6, rA]
  simp only [LayoutB.unpackPoseWithTimestamp, LayoutB.POSE_PACKET_SIZE, hlen,
    g0, g8, g12, g16, g20, g24, g28, roundToFloat32Precision]
  norm_num

/-- C2 witness: a concrete round trip at the pose (1.0, -1.0, 0.0, 0.5, -0.5,
1.5) — all axes exactly representable in binary32, so they come back
bit-for-bit — with an exactly-returned 64-bit timestamp pattern. -/
theorem packPose_roundTrip_witness :
    LayoutB.unpackPoseWithTimestamp
        (LayoutB.packPose
          { tx := 0x3FF0000000000000, ty := 0xBFF0000000000000, tz := 0,
            rx := 0x3FE0000000000000, ry := 0xBFE0000000000000,
            rz := 0x3FF8000000000000 }
          0x4172A05F20000000 none) =
      Except.ok
        { timestamp := 0x4172A05F20000000
          axes :=
            { tx := 0x3FF0000000000000, ty := 0xBFF0000000000000, tz := 0,
              rx := 0x3FE0000000000000, ry := 0xBFE0000000000000,
              rz := 0x3FF8000000000000 } } := by
  have h := packPose_roundTrip
    { tx := 0x3FF0000000000000, ty := 0xBFF0000000000000, tz := 0,
      rx := 0x3FE0000000000000, ry := 0xBFE0000000000000,
      rz := 0x3FF8000000000000 }
    0x4172A05F20000000 (by norm_num)
  rw [h]
  rfl

/-! ### Transport session (src/app/services/webrtc-loopback.service.ts)

The service's mutable fields become a record; the RTCPeerConnection and
RTCDataChannel resources become liveness booleans (their interesting behaviour
lives outside this repository).  connect() is modelled up to the point where
its returned promise settles: its synchronous guard, the resource creation,
and — when the awaited offer/answer exchange throws, abstracted as a boolean
outcome — the catch block; it also returns the sequence of values the
connectionState signal is set to during the call.  The latency arithmetic the
receive path performs on JS numbers is carried out on rationals, with the
decoded timestamp pattern mapped to its rational value (non-finite patterns,
which have no rational counterpart, are mapped to 0; no claim depends on
them). -/

/-- The rational value of a finite binary64 pattern (non-finite patterns map
to 0). -/
def f64BitsToRat (bits : Nat) : ℚ :=
  let s : Nat := bits / 2 ^ 63 % 2
  let e : Nat := bits / 2 ^ 52 % 2 ^ 11
  let m : Nat := bits % 2 ^ 52
  if e = 2047 then 0
  else
    let mag : ℚ :=
      if e = 0 then (m : ℚ) * (2 : ℚ) ^ (-(1074 : Int))
      else ((2 ^ 52 + m : Nat) : ℚ) * (2 : ℚ) ^ ((e : Int) - 1075)
    if s = 1 then -mag else mag

/-- The four connection states of the service. -/
inductive ConnectionState where
  | disconnected
  | connecting
  | connected
  | failed
  deriving DecidableEq, Repr

/-- Capacity of the trailing latency window. -/
def LATENCY_HISTORY_SIZE : Nat := 30

/-- The mutable state of WebRTCLoopbackService. -/
structure Service where
  connectionState : ConnectionState
  receivedPose : Option SpaceMouseAxes
  packetsSent : Nat
  packetsReceived : Nat
  latencyMs : Option ℚ
  avgLatencyMs : Option ℚ
  latencyHistory : List ℚ
  pc1 : Bool
  pc2 : Bool
  dataChannel : Bool
  deriving DecidableEq, Repr

/-- The service's initial field values. -/
def initialService : Service where
  connectionState := ConnectionState.disconnected
  receivedPose := none
  packetsSent := 0
  packetsReceived := 0
  latencyMs := none
  avgLatencyMs := none
  latencyHistory := []
  pc1 := false
  pc2 := false
  dataChannel := false

/-- disconnect(): closes the channel and both peer connections, sets the state
to disconnected and resets every statistic.  (The source guards each close()
behind a null check; the resulting field values are the same either way.) -/
def disconnect (s : Service) : Service :=
  { s with
    dataChannel := false
    pc1 := false
    pc2 := false
    connectionState := ConnectionState.disconnected
    packetsSent := 0
    packetsReceived := 0
    receivedPose := none
    latencyMs := none
    avgLatencyMs := none
    latencyHistory := [] }

/-- connect(): returns immediately unless the state is disconnected; otherwise
sets connecting, creates both peer connections and the data channel, and runs
the offer/answer and candidate exchange, whose outcome the model receives as
handshakeOk; on a throw the catch block sets failed and calls disconnect().
The second component is the sequence of values the connectionState signal is
set to during the call (reaching connected happens later, in the channel's
open callback, not inside connect()). -/
def connect (s : Service) (handshakeOk : Bool) :
    Service × List ConnectionState :=
  if s.connectionState ≠ ConnectionState.disconnected then (s, [])
  else
    let s1 := { s with
      connectionState := ConnectionState.connecting
      pc1 := true
      pc2 := true
      dataChannel := true }
    if handshakeOk then (s1, [ConnectionState.connecting])
    else
      (disconnect { s1 with connectionState := ConnectionState.failed },
        [ConnectionState.connecting, ConnectionState.failed,
          ConnectionState.disconnected])

/-- sendPose(): a no-op unless the data channel is open, otherwise packs and
sends the pose and increments packetsSent. -/
def sendPose (s : Service) (axes : SpaceMouseAxes) : Service :=
  if s.dataChannel then { s with packetsSent := s.packetsSent + 1 } else s

/-- The push into the latency window: append, then shift the oldest sample out
when the capacity is exceeded. -/
def pushLatency (history : List ℚ) (latency : ℚ) : List ℚ :=
  let h := history ++ [latency]
  if LATENCY_HISTORY_SIZE < h.length then h.drop 1 else h

/-- handleReceivedData: decode the inbound buffer (a failure is swallowed and
nothing is updated), compute the latency from the receive time and the decoded
send time, push it into the window, and publish pose, counters and the fresh
arithmetic mean of the window. -/
def handleReceivedData (s : Service) (data : List Nat) (receiveTime : ℚ) :
    Service :=
  match LayoutB.unpackPoseWithTimestamp data with
  | Except.error _ => s
  | Except.ok tp =>
    let latency := receiveTime - f64BitsToRat tp.timestamp
    let history := pushLatency s.latencyHistory latency
    let avgLatency := history.sum / (history.length : ℚ)
    { s with
      receivedPose := some tp.axes
      packetsReceived := s.packetsReceived + 1
      latencyMs := some latency
      avgLatencyMs := some avgLatency
      latencyHistory := history }

/-! ### Claims about the session lifecycle -/

/-- C6: disconnect is idempotent and total over states: from any state it ends
disconnected, tears down the channel and both peer connections, and resets all
statistics to their initial values — indeed it restores the entire initial
service state. -/
theorem disconnect_idempotent_total (s : Service) :
    disconnect s = initialService ∧
    disconnect (disconnect s) = disconnect s ∧
    (disconnect s).connectionState = ConnectionState.disconnected ∧
    (disconnect s).dataChannel = false ∧
    (disconnect s).pc1 = false ∧
    (disconnect s).pc2 = false ∧
    (disconnect s).packetsSent = 0 ∧
    (disconnect s).packetsReceived = 0 ∧
    (disconnect s).latencyMs = none ∧
    (disconnect s).avgLatencyMs = none ∧
    (disconnect s).latencyHistory = [] :=
  ⟨rfl, rfl, rfl, rfl, rfl, rfl, rfl, rfl, rfl, rfl, rfl⟩

/-- C7: connect is a no-op unless the current state is disconnected: from
connecting, connected or failed it returns immediately, emits no state change
and leaves the whole service state unchanged. -/
theorem connect_noop_unless_disconnected (s : Service) (handshakeOk : Bool)
    (h : s.connectionState ≠ ConnectionState.disconnected) :
    connect s handshakeOk = (s, []) := by
  unfold connect
  rw [if_pos h]

/-- C7 witness: connect applied in the connected state changes nothing. -/
theorem connect_noop_unless_disconnected_witness :
    connect { initialService with connectionState := ConnectionState.connected }
        true =
      ({ initialService with connectionState := ConnectionState.connected }, []) :=
  connect_noop_unless_disconnected _ _ (by decide)

/-- C1 counterexample: after a handshake failure the resting connection state
is disconnected — the catch block sets failed but then calls disconnect(),
which overwrites it — and a second connect() with no intervening disconnect()
is not blocked: it proceeds (emitting connecting), so no explicit
disconnect()/connect() pair is required to retry. -/
theorem connect_failure_cex :
    (connect initialService false).1.connectionState =
      ConnectionState.disconnected ∧
    (connect (connect initialService false).1 true).2 =
      [ConnectionState.connecting] := by
  constructor <;> rfl

/-- C1 (amended): any failure during connect()'s offer/answer and candidate
exchange sets the state signal to failed (observable in the emitted state
trace) and then performs exactly the cleanup of disconnect(); the session
therefore ends disconnected with resources torn down and statistics reset, and
a subsequent connect() alone suffices to retry. -/
theorem connect_failure_cleanup (s : Service)
    (h : s.connectionState = ConnectionState.disconnected) :
    (connect s false).1 = disconnect s ∧
    (connect s false).2 =
      [ConnectionState.connecting, ConnectionState.failed,
        ConnectionState.disconnected] ∧
    (connect s false).1.connectionState = ConnectionState.disconnected := by
  unfold connect
  rw [if_neg (by simp [h])]
  exact ⟨rfl, rfl, rfl⟩

/-- C1 witness: the failing handshake from the initial state. -/
theorem connect_failure_cleanup_witness :
    (connect initialService false).1 = disconnect initialService ∧
    (connect initialService false).2 =
      [ConnectionState.connecting, ConnectionState.failed,
        ConnectionState.disconnected] ∧
    (connect initialService false).1.connectionState =
      ConnectionState.disconnected :=
  connect_failure_cleanup initialService rfl

/-! ### Claim C5: the latency window -/

/-- The latency sample a successfully decoded packet (buffer, receive time)
contributes, none when decoding fails. -/
def latencyOfPacket (packet : List Nat × ℚ) : Option ℚ :=
  match LayoutB.unpackPoseWithTimestamp packet.1 with
  | Except.ok tp => some (packet.2 - f64BitsToRat tp.timestamp)
  | Except.error _ => none

/-- The latency samples of a packet sequence, in arrival order. -/
def latenciesOf (packets : List (List Nat × ℚ)) : List ℚ :=
  packets.filterMap latencyOfPacket

/-- The trailing window: the last LATENCY_HISTORY_SIZE entries of a list. -/
def lastWindow (l : List ℚ) : List ℚ :=
  l.drop (l.length - LATENCY_HISTORY_SIZE)

/-- Delivering a packet sequence to a freshly connected service's receive
callback. -/
def runReceive (packets : List (List Nat × ℚ)) : Service :=
  packets.foldl (fun s p => handleReceivedData s p.1 p.2) initialService

theorem pushLatency_lastWindow (L : List ℚ) (x : ℚ) :
    pushLatency (lastWindow L) x = lastWindow (L ++ [x]) := by
  unfold pushLatency lastWindow LATENCY_HISTORY_SIZE
  simp only [List.length_append, List.length_drop, List.length_singleton]
  rcases le_or_lt L.length 30 with hle | hgt
  · rw [show L.length - 30 = 0 by omega, List.drop_zero]
    rcases eq_or_lt_of_le hle with heq | hlt
    · rw [if_pos (by omega), show L.length + 1 - 30 = 1 by omega]
    · rw [if_neg (by omega), show L.length + 1 - 30 = 0 by omega, List.drop_zero]
  · rw [if_pos (by omega)]
    rw [List.drop_append_eq_append_drop, List.drop_append_eq_append_drop,
      List.drop_drop]
    simp only [List.length_drop]
    rw [show 1 - (L.length - (L.length - 30)) = 0 by omega,
      show L.length + 1 - 30 - L.length = 0 by omega,
      show L.length - 30 + 1 = L.length + 1 - 30 by omega]

/-- C5: the latency window holds at most 30 samples with FIFO eviction: after
any packet sequence, each successfully decoded packet having contributed
exactly one sample, the window holds exactly the most recent 30 samples (so
after 31 received packets the first is evicted), packetsReceived counts the
decoded packets, and avgLatencyMs is the arithmetic mean of exactly the
samples currently in the window. -/
theorem latencyWindow_spec (packets : List (List Nat × ℚ)) :
    (runReceive packets).latencyHistory = lastWindow (latenciesOf packets) ∧
    (runReceive packets).latencyHistory.length ≤ 30 ∧
    (runReceive packets).packetsReceived = (latenciesOf packets).length ∧
    (runReceive packets).avgLatencyMs =
      (if latenciesOf packets = [] then none
       else some ((lastWindow (latenciesOf packets)).sum /
         ((lastWindow (latenciesOf packets)).length : ℚ))) := by
  induction packets using List.reverseRecOn with
  | nil => exact ⟨rfl, by norm_num [runReceive, initialService], rfl, rfl⟩
  | append_singleton l p ih =>
      obtain ⟨ihHist, ihLen, ihRecv, ihAvg⟩ := ih
      have hstep : runReceive (l ++ [p]) =
          handleReceivedData (runReceive l) p.1 p.2 := by
        simp [runReceive, List.foldl_append]
      cases hp : latencyOfPacket p with
      | none =>
          have hnop : handleReceivedData (runReceive l) p.1 p.2 = runReceive l := by
            unfold handleReceivedData
            unfold latencyOfPacket at hp
            cases hu : LayoutB.unpackPoseWithTimestamp p.1 with
            | ok tp => rw [hu] at hp; simp at hp
            | error e => rfl
          have hlat : latenciesOf (l ++ [p]) = latenciesOf l := by
            simp [latenciesOf, List.filterMap_append, List.filterMap_cons, hp]
          rw [hstep, hnop, hlat]
          exact ⟨ihHist, ihLen, ihRecv, ihAvg⟩
      | some x =>
          obtain ⟨tp, hup, hx⟩ : ∃ tp,
              LayoutB.unpackPoseWithTimestamp p.1 = Except.ok tp ∧
                p.2 - f64BitsToRat tp.timestamp = x := by
            unfold latencyOfPacket at hp
            cases hu : LayoutB.unpackPoseWithTimestamp p.1 with
            | ok tp => rw [hu] at hp; simp at hp; exact ⟨tp, rfl, hp⟩
            | error e => rw [hu] at hp; simp at hp
          have hlat : latenciesOf (l ++ [p]) = latenciesOf l ++ [x] := by
            simp [latenciesOf, List.filterMap_append, List.filterMap_cons, hp]
          have hstep2 : handleReceivedData (runReceive l) p.1 p.2 =
              { runReceive l with
                receivedPose := some tp.axes
                packetsReceived := (runReceive l).packetsReceived + 1
                latencyMs := some x
                avgLatencyMs := some ((pushLatency (runReceive l).latencyHistory x).sum /
                  ((pushLatency (runReceive l).latencyHistory x).length : ℚ))
                latencyHistory := pushLatency (runReceive l).latencyHistory x } := by
            unfold handleReceivedData
            rw [hup]
            dsimp only
            rw [hx]
          rw [hstep, hstep2, hlat]
          have hwin : pushLatency (runReceive l).latencyHistory x =
              lastWindow (latenciesOf l ++ [x]) := by
            rw [ihHist, pushLatency_lastWindow]
          refine ⟨hwin, ?_, ?_, ?_⟩
          · rw [hwin]
            unfold lastWindow LATENCY_HISTORY_SIZE
            simp only [List.length_drop]
            omega
          · simp only [ihRecv, List.length_append, List.length_singleton]
          · rw [if_neg (by simp)]
            rw [hwin]
